import Mathlib

/-!
Shallow embedding of the grid remapping and statistics-aggregation core of
`src/scripts/main.py` (RCAT main script), together with theorems settling the
frozen claims about it.

Conventions:
* numpy floating computations on the relevant code paths are exact enough to be
  modelled over `ℚ` (all inputs are integer sizes; `np.round` is modelled with
  its round-half-to-even tie rule);
* fallible code (python exceptions: `IndexError` on empty comprehension
  indexing, `NameError` on an undefined variable) is modelled with `Option`;
* external collaborators (xarray, xESMF, dask, the statistics and geosfuncs
  modules) are modelled as explicit function parameters or as fields updated
  according to their documented contract, never as hidden state.
-/

set_option maxRecDepth 100000

namespace RCAT

/-- `np.round` on a rational value, as an integer: round to nearest, ties to
even (numpy's rule).  Models `np.round(q)` for the finite values reached in
`manage_chunks`. -/
def npRound (q : ℚ) : ℤ :=
  if q - (⌊q⌋ : ℚ) < 1/2 then ⌊q⌋
  else if 1/2 < q - (⌊q⌋ : ℚ) then ⌊q⌋ + 1
  else if ⌊q⌋ % 2 = 0 then ⌊q⌋ else ⌊q⌋ + 1

/-- Exact value of `np.round(Real.sqrt q)` (ties to even) for a nonnegative
rational `q`, computed without real numbers: with `k = ⌊√q⌋`
(`= Nat.sqrt ⌊q⌋` for `q ≥ 0`), `√q` rounds to `k` iff `√q < k + 1/2`
iff `4*q < (2*k+1)^2`, to `k+1` iff `4*q > (2*k+1)^2`, and the tie
`4*q = (2*k+1)^2` (i.e. `√q = k + 1/2` exactly) goes to the even neighbour. -/
def roundSqrt (q : ℚ) : ℕ :=
  let k := Nat.sqrt ⌊q⌋.toNat
  if 4*q < ((2*k+1 : ℕ) : ℚ)^2 then k
  else if ((2*k+1 : ℕ) : ℚ)^2 < 4*q then k + 1
  else if k % 2 = 0 then k else k + 1

/-- Block sizes produced by `data.chunk({dim: c})` on a dimension of size `n`
(dask semantics: blocks of `c` elements, the last block holding the
remainder).  `fuel`-structured so that it reduces definitionally; `fuel = n`
always suffices since each step consumes at least one element when `c ≥ 1`
(and `c = 0` never recurses). -/
def mkChunksF (c : ℕ) : ℕ → ℕ → List ℕ
  | _, 0 => []
  | 0, _ + 1 => []
  | fuel + 1, n + 1 =>
    if c = 0 then [] else min c (n + 1) :: mkChunksF c fuel (n + 1 - c)

/-- Block sizes along a dimension of size `n` chunked with block size `c`. -/
def mkChunks (c n : ℕ) : List ℕ := mkChunksF c n n

/-- A chunked labelled dataset, as far as `manage_chunks` observes and changes
it: its dimension names (`data.dims`), the size of each dimension
(`data[d].size`; `sizes "time"` is `data.time.size`), the current block sizes
of each dimension (`data.chunks[d]`), and its payload of data values, which
chunking never touches (`values` stands for the full ordered array content). -/
structure DSet (α : Type) where
  dims : List String
  sizes : String → ℕ
  chunks : String → List ℕ
  values : α

/-- `data.chunk({d₁: c₁, ...})`: replace the block structure of the listed
dimensions, leaving everything else (in particular the data values) intact. -/
def DSet.rechunk (d : DSet α) (spec : List (String × ℕ)) : DSet α :=
  { d with
    chunks := fun s =>
      match spec.lookup s with
      | some c => mkChunks c (d.sizes s)
      | none => d.chunks s }

/-- The hard-coded alias lists for the spatial dimensions:
`spcdim = {'x': ['x', 'X', 'lon', 'rlon'], 'y': ['y', 'Y', 'lat', 'rlat']}`. -/
def xAliases : List String := ["x", "X", "lon", "rlon"]

/-- The y-axis aliases of `spcdim`. -/
def yAliases : List String := ["y", "Y", "lat", "rlat"]

/-- `[x for x in data.dims if x in spcdim[ax]][0]`: `none` models the
`IndexError` raised when no dimension matches. -/
def findDim (dims : List String) (aliases : List String) : Option String :=
  (dims.filter (fun s => aliases.contains s)).head?

/-- The chunk edge computed in the `'space'` branch of `manage_chunks`:
`np.round(np.maximum(xsize, ysize) / np.sqrt(xsize*ysize/cmax)).astype(int)`
with `cmax = 500`.  For positive sizes,
`max/√(x*y/500) = √(500*max²/(x*y))`, so the value is `roundSqrt` of that
rational (the source divides by the float square root; the two expressions
agree exactly on every positive input). -/
def cSize (xsize ysize : ℕ) : ℕ :=
  roundSqrt ((500 * ((max xsize ysize : ℕ) : ℚ)^2) / ((xsize * ysize : ℕ) : ℚ))

/-- `manage_chunks(data, chunk_dim)` (main.py lines 383–410).
`'space'` mode: find the x/y dimensions by alias (IndexError → `none`),
compute the chunk edge `c_size` and re-chunk `{'time': time.size, xd: c, yd: c}`.
Any other `chunk_dim` takes the `else` branch: if the number of existing time
blocks exceeds 500, re-chunk time to blocks of
`np.round(time.size/500).astype(int)` elements; otherwise return the data
unchanged. -/
def manage_chunks (data : DSet α) (chunk_dim : String) : Option (DSet α) :=
  if chunk_dim = "space" then
    match findDim data.dims xAliases, findDim data.dims yAliases with
    | some xd, some yd =>
      some (data.rechunk
        [("time", data.sizes "time"),
         (xd, cSize (data.sizes xd) (data.sizes yd)),
         (yd, cSize (data.sizes xd) (data.sizes yd))])
    | _, _ => none
  else
    if (data.chunks "time").length > 500 then
      some (data.rechunk
        [("time", (npRound ((data.sizes "time" : ℚ) / 500)).toNat)])
    else
      some data

/-- `get_prep_func(deacc)` (main.py lines 413–425), applied to a time-indexed
dataset modelled as the list of its per-time-step slices: `deacc` on gives
`data.diff(dim='time')` (successive differences, `out[i] = in[i+1] - in[i]`),
off gives `data.isel(time=slice(0, -1))` (drop the last time step). -/
def get_prep_func (deacc : Bool) {α : Type} [Sub α] : List α → List α :=
  if deacc then
    fun data => List.zipWith (fun a b => a - b) data.tail data
  else
    fun data => data.dropLast

/-! ### Regridding matrix with NaN rows (claim C2)

Values that may be NaN are modelled as `Option ℚ`, `none` standing for NaN;
`nMul`/`nAdd` propagate NaN the way IEEE arithmetic does (any operation
touching a NaN yields NaN). -/

/-- NaN-propagating multiplication. -/
def nMul : Option ℚ → Option ℚ → Option ℚ
  | some a, some b => some (a * b)
  | _, _ => none

/-- NaN-propagating addition. -/
def nAdd : Option ℚ → Option ℚ → Option ℚ
  | some a, some b => some (a + b)
  | _, _ => none

/-- Dot product of a matrix row with a vector, NaN-propagating. -/
def nDot (row v : List (Option ℚ)) : Option ℚ :=
  (List.zipWith nMul row v).foldr nAdd (some 0)

/-- Modelled from the spec: `add_matrix_NaNs` lives in the external
`grid_interpolation` module (imported as `remap` by `main.py`), whose source is
not under `src/`.  Per the spec, it takes the regridding matrix and "rows with
all-zero weight (target cells with no valid overlapping source …) are detected
and replaced with an explicit NaN-producing row so that regridded output for
those cells is NaN rather than silently zero".  A row is made NaN-producing by
planting a NaN in its first entry. -/
def add_matrix_NaNs (M : List (List ℚ)) : List (List (Option ℚ)) :=
  M.map fun row =>
    if row.all (· = 0) then
      match row with
      | [] => []
      | _ :: t => none :: t.map some
    else row.map some

/-- Sparse-matrix application `A.dot(x)` over NaN-aware entries: one dot
product per matrix row. -/
def applyMatrix (M : List (List (Option ℚ))) (x : List (Option ℚ)) :
    List (Option ℚ) :=
  M.map fun row => nDot row x

/-! ### Regridding application (claim C4) -/

/-- Longitude/latitude coordinate arrays: rectilinear grids carry 1D arrays,
curvilinear grids 2D arrays. -/
inductive Coord where
  | one : List ℚ → Coord
  | two : List (List ℚ) → Coord
deriving DecidableEq

/-- Total number of elements of a coordinate array (`ndarray.size`). -/
def coordSize : Coord → ℕ
  | .one l => l.length
  | .two m => m.length * (m.headD []).length

/-- A target grid as passed to `get_grids`. -/
structure TGrid where
  lon : Coord
  lat : Coord

/-- The `outdims` / `outdims_shape` computation of `get_grids` (main.py lines
142–147): for a 1D (rectilinear) target longitude, output dims are
`(lat.size, lon.size)` and the lon/lat coordinates are attached on the 1D dims
`('x',)` / `('y',)`; for a 2D target longitude, output dims are `lon.shape`
and both coordinates are attached on `('y', 'x')`. -/
def get_grids_outdims (t_grid : TGrid) : (ℕ × ℕ) × (List String × List String) :=
  match t_grid.lon with
  | .one l => ((coordSize t_grid.lat, l.length), (["x"], ["y"]))
  | .two m => ((m.length, (m.headD []).length), (["y", "x"], ["y", "x"]))

/-- `data.reshape(-1, Ny_in*Nx_in)`: the flattened view of the trailing two
spatial dims, in row-major order (`flat[t, k] = data[t, k / Nx_in, k % Nx_in]`). -/
def flatten_spatial (NxIn : ℕ) (data : ℕ → ℕ → ℕ → ℚ) : ℕ → ℕ → ℚ :=
  fun t k => data t (k / NxIn) (k % NxIn)

/-- `A.dot(indata_flat.T).T`: matrix–matrix multiplication of the regridding
matrix with the flattened data (`out[t, p] = Σ_k A[p, k] · flat[t, k]`, the sum
running over the `Ny_in*Nx_in` flattened source cells). -/
def matrix_apply (A : ℕ → ℕ → ℚ) (NyIn NxIn : ℕ) (flat : ℕ → ℕ → ℚ) :
    ℕ → ℕ → ℚ :=
  fun t p => ∑ k ∈ Finset.range (NyIn * NxIn), A p k * flat t k

/-- `_rgr_calc(data, A, out_dims)` (main.py lines 233–246): flatten the
trailing two spatial dims, apply the sparse matrix, and reshape to
`(…, Ny_out, Nx_out)` (row-major: `out[t, i, j] = outflat[t, i*Nx_out + j]`). -/
def _rgr_calc (A : ℕ → ℕ → ℚ) (NyIn NxIn : ℕ) (out_dims : ℕ × ℕ)
    (data : ℕ → ℕ → ℕ → ℚ) : ℕ → ℕ → ℕ → ℚ :=
  fun t i j => matrix_apply A NyIn NxIn (flatten_spatial NxIn data) t
    (i * out_dims.2 + j)

/-- The input handed to `regridding`: time coordinate values, variable
attributes, the data values (time-major, trailing dims `Ny_in × Nx_in`), and
the spatial shape. -/
structure InData (τ : Type) where
  NyIn : ℕ
  NxIn : ℕ
  time : List τ
  attrs : List (String × String)
  vals : ℕ → ℕ → ℕ → ℚ

/-- The labelled dataset `regridding` wraps its result in. -/
structure RgrOut (τ : Type) where
  vals : ℕ → ℕ → ℕ → ℚ
  time : List τ
  attrs : List (String × String)
  lonDims : List String
  latDims : List String
  lon : Coord
  lat : Coord

/-- `regridding(data, data_name, var, target_grid, method)` (main.py lines
204–230), given the already-built regridding matrix `A` (the construction
`xe.Regridder` + `add_matrix_NaNs` is an external collaborator).  The
`da.map_blocks(_rgr_calc, …)` call applies `_rgr_calc` per time block and
concatenates along time; since `_rgr_calc` maps each time index independently,
that equals the global application modelled here.  The result keeps the
input's time coordinate values and attributes (`attrs.copy()`) and attaches
the target grid's lon/lat on the dims chosen by `get_grids`. -/
def regridding (indata : InData τ) (target_grid : TGrid) (A : ℕ → ℕ → ℚ) :
    RgrOut τ :=
  { vals := _rgr_calc A indata.NyIn indata.NxIn (get_grids_outdims target_grid).1
      indata.vals
    time := indata.time
    attrs := indata.attrs
    lonDims := (get_grids_outdims target_grid).2.1
    latDims := (get_grids_outdims target_grid).2.2
    lon := target_grid.lon
    lat := target_grid.lat }

/-! ### Remapping orchestration (claim C3) -/

/-- A participant's grid (`dd[name]['grid']`, a dict with `lon`/`lat`
arrays), kept abstract in the coordinate type `κ`. -/
structure RGrid (κ : Type) where
  lon : κ
  lat : κ

/-- One participant's entry in the data dictionary
(`{'data': …, 'grid': …, 'gridname': …}`). -/
structure Entry (δ κ : Type) where
  data : δ
  grid : RGrid κ
  gridname : String

/-- The `gdict` target-grid bookkeeping updated by `remap_func`. -/
structure GDict (κ : Type) where
  lon : List (String × κ)
  lat : List (String × κ)
  gridname : String

/-- `dd[name]['data'] = newd`: update one participant's data in place. -/
def updData (dd : String → Entry δ κ) (name : String) (newd : δ) :
    String → Entry δ κ :=
  fun s => if s = name then { dd s with data := newd } else dd s

/-- A `for nm in names: dd[nm]['data'] = regridding(dd, nm, v, tg, method)`
loop: sequentially update each listed participant's data with the result of
the regridding function `rgr`, which — like the source's `regridding` — receives
the current dictionary, the participant name and the target grid (`v` and the
method are fixed throughout the loop and absorbed into `rgr`). -/
def regridFold (rgr : (String → Entry δ κ) → String → RGrid κ → δ)
    (tg : RGrid κ) (dd : String → Entry δ κ) (names : List String) :
    String → Entry δ κ :=
  names.foldl (fun acc nm => updData acc nm (rgr acc nm tg)) dd

/-- `remap_func(dd, v, vconf, mnames, onames, gdict)` (main.py lines 152–201).
`regrid` is `vconf['regrid']`; `rgr` abstracts `regridding(dd, name, v,
target_grid, vconf['rgr_method'])`.  When no observation is configured the
source passes `onames = [None]`; that case is encoded as `onames = []` with
`obsNone = true`, so the source's `None not in onames` test becomes
`!obsNone`, `len(onames) > 1` becomes `onames.length > 1` (both `False` for
`[None]`), and a name's membership in `[None]` is `False` like membership in
`[]`.  When `regrid` names neither an observation nor a model, the source
falls through both branches and raises `NameError` at `gdict.update({'gridname':
gridname})`; that is the `none` result. -/
def remap_func (dd : String → Entry δ κ) (regrid : Option String)
    (mnames onames : List String)
    (rgr : (String → Entry δ κ) → String → RGrid κ → δ)
    (obsNone : Bool) :
    Option ((String → Entry δ κ) × GDict κ) :=
  match regrid with
  | none =>
    some (dd,
      { lon := mnames.map (fun m => (m, (dd m).grid.lon)) ++
          (if !obsNone then onames.map (fun o => (o, (dd o).grid.lon)) else [])
        lat := mnames.map (fun m => (m, (dd m).grid.lat)) ++
          (if !obsNone then onames.map (fun o => (o, (dd o).grid.lat)) else [])
        gridname := "native_grid" })
  | some tname =>
    if tname ∈ onames then
      some
        ((if onames.length > 1 then
            regridFold rgr ((dd tname).grid)
              (regridFold rgr ((dd tname).grid) dd mnames)
              (onames.erase tname)
          else
            regridFold rgr ((dd tname).grid) dd mnames),
          { lon := [(tname, (dd tname).grid.lon)]
            lat := [(tname, (dd tname).grid.lat)]
            gridname := (dd tname).gridname })
    else if tname ∈ mnames then
      some
        ((if !obsNone then
            regridFold rgr ((dd tname).grid)
              (regridFold rgr ((dd tname).grid) dd (mnames.erase tname))
              onames
          else
            regridFold rgr ((dd tname).grid) dd (mnames.erase tname)),
          { lon := [(tname, (dd tname).grid.lon)]
            lat := [(tname, (dd tname).grid.lat)]
            gridname := (dd tname).gridname })
    else
      none

/-! ### Statistics aggregation (claims C6, C8) -/

/-- The external collaborators `calc_stats` drives, as explicit functions:
`prep` models lines 265–278 of main.py (sub-selection of the variable when the
dataset has more than two data variables, and the optional time resampling —
both pure xarray operations on the dataset); `calcStatistics` models
`st.calc_statistics(·, v, stat, stats_config)`; `regMask` models
`gfunc.reg_mask(data.lon.values, data.lat.values, r, cut_data=False)` — note
it reads the (chunk-managed) data's own coordinates; `maskData` models
`get_masked_data(·, v, mask)` (an xarray `where(mask, drop=True)`). -/
structure StatsExt (β μ : Type) where
  prep : DSet β → DSet β
  calcStatistics : DSet β → DSet β
  regMask : DSet β → String → μ
  maskData : DSet β → μ → DSet β

/-- The per-participant result record `st_data[v][m]`: the domain statistic
and, when regions are configured, the per-region results. -/
structure StEntry (β : Type) where
  domain : DSet β
  regions : Option (List (String × DSet β))

/-- The body of the innermost `calc_stats` loop (main.py lines 263–300) for
one participant with available data: prepare the data, re-chunk it via
`manage_chunks` (an `IndexError` there propagates: `none`), compute the domain
statistic, and — if regions are configured (`if regions:`) — compute the
per-region results: with `pool` on, the statistic of each region-masked subset
of the data; with `pool` off, each region mask applied to the already-computed
domain statistic. -/
def calc_stats_entry (ext : StatsExt β μ) (chunk_dim : String) (pool : Bool)
    (regions : List String) (indata : DSet β) : Option (StEntry β) :=
  (manage_chunks (ext.prep indata) chunk_dim).map fun data =>
    { domain := ext.calcStatistics data
      regions :=
        if regions.isEmpty then none
        else
          some
            (if pool then
              regions.map fun r =>
                (r, ext.calcStatistics (ext.maskData data (ext.regMask data r)))
            else
              regions.map fun r =>
                (r, ext.maskData (ext.calcStatistics data)
                  (ext.regMask data r))) }

/-- The participant loop of `calc_stats` (main.py lines 256–300) for one
variable: participants whose data entry is `None` are skipped (no result
entry, no error); for the others the per-participant statistics are computed
in order.  An exception inside any participant's computation aborts the whole
call (`none`). -/
def calc_stats (ext : StatsExt β μ) (chunk_dim : String) (pool : Bool)
    (regions : List String) :
    List (String × Option (DSet β)) → Option (List (String × StEntry β))
  | [] => some []
  | (nm, od) :: rest =>
    match od with
    | none => calc_stats ext chunk_dim pool regions rest
    | some d =>
      match calc_stats_entry ext chunk_dim pool regions d,
          calc_stats ext chunk_dim pool regions rest with
      | some e, some res => some ((nm, e) :: res)
      | _, _ => none

/-! ### Coordinate ascending-order fixup of `get_obs_data` (claim C9) -/

/-- `np.diff(l)[0]`: `none` models the `IndexError` raised when the array has
fewer than two elements. -/
def diffHead (l : List ℚ) : Option ℚ :=
  match l with
  | a :: b :: _ => some (b - a)
  | _ => none

/-- `arr[:, 0]`, the first column of a 2D array; `none` when a row is empty. -/
def column0 : List (List ℚ) → Option (List ℚ)
  | [] => some []
  | r :: rest => do
    let h ← r.head?
    let t ← column0 rest
    some (h :: t)

/-- The "Make sure lon/lat elements are in ascending order" section of
`get_obs_data` (main.py lines 508–522), acting on the captured `lons`/`lats`
arrays and on the dataset's values (`dat`, rows indexed by y, columns by x;
`reindex({xd: reversed})` reverses each row, `reindex({yd: reversed})`
reverses the row order).  1D case: a negative first difference of `lons`
(resp. `lats`) reverses that coordinate array and reindexes the dataset along
x (resp. y).  2D case: a negative first difference of `lons[0, :]` is
"fixed" with `np.flipud(lons)` — which reverses the ROW order of the lon
array, not its x order — while the dataset is reindexed along x
(`np.flipud(obs_data[xd])` reverses the 1D dimension coordinate); a negative
first difference of `lats[:, 0]` flips the lat rows and reindexes along y.
Mixed 1D/2D lon–lat pairs make the source compare a numpy array with 0 in
`if`, which raises; that is the final `none` arm. -/
def get_obs_data_orient (lons lats : Coord) (dat : List (List ℚ)) :
    Option (Coord × Coord × List (List ℚ)) :=
  match lons, lats with
  | .one ls, .one lt => do
    let d1 ← diffHead ls
    let p1 := if d1 < 0 then (Coord.one ls.reverse, dat.map List.reverse)
      else (Coord.one ls, dat)
    let d2 ← diffHead lt
    let p2 := if d2 < 0 then (Coord.one lt.reverse, p1.2.reverse)
      else (Coord.one lt, p1.2)
    some (p1.1, p2.1, p2.2)
  | .two ls, .two lt => do
    let r0 ← ls.head?
    let d1 ← diffHead r0
    let p1 := if d1 < 0 then (Coord.two ls.reverse, dat.map List.reverse)
      else (Coord.two ls, dat)
    let c0 ← column0 lt
    let d2 ← diffHead c0
    let p2 := if d2 < 0 then (Coord.two lt.reverse, p1.2.reverse)
      else (Coord.two lt, p1.2)
    some (p1.1, p2.1, p2.2)
  | _, _ => none

/-! ### Concrete instances used by witnesses and counterexamples -/

/-- A dataset with a 1000 × 1000 spatial grid and 120 time steps, as fed to
`manage_chunks` in `'space'` mode. -/
def C1data : DSet Unit :=
  { dims := ["time", "y", "x"]
    sizes := fun s => if s = "time" then 120 else 1000
    chunks := fun s => if s = "time" then [120] else [1000]
    values := () }

/-- A small concrete dataset whose time axis is already in one block. -/
def C5data : DSet ℕ :=
  { dims := ["time", "y", "x"]
    sizes := fun _ => 10
    chunks := fun _ => [10]
    values := 77 }

/-- A concrete dataset in which `C7_time_rechunk` fires the re-chunking
branch: 10 time steps split into 10 singleton blocks is fine, so take one with
a single block to exercise the unchanged branch. -/
def C7data : DSet ℕ :=
  { dims := ["time", "y", "x"]
    sizes := fun s => if s = "time" then 10 else 4
    chunks := fun s => if s = "time" then [4, 4, 2] else [4]
    values := 3 }

/-- A dataset with 1001 time steps currently in 1001 singleton blocks: the
re-chunking branch fires (1001 > 500 blocks) and produces blocks of
`round(1001/500) = 2` elements. -/
def C7bad : DSet Unit :=
  { dims := ["time", "y", "x"]
    sizes := fun s => if s = "time" then 1001 else 1
    chunks := fun s => if s = "time" then List.replicate 1001 1 else [1]
    values := () }

/-- A concrete rectilinear target grid for the C4 witness. -/
def C4tg : TGrid := { lon := Coord.one [1, 2], lat := Coord.one [5, 6, 7] }

/-- A concrete 1-step, 2×2 input for the C4 witness. -/
def C4in : InData ℕ :=
  { NyIn := 2, NxIn := 2, time := [0], attrs := [("units", "K")]
    vals := fun _ y x => (y : ℚ) + 2 * x }

/-- A concrete data dictionary for the C3 witness: one model, two
observations. -/
def C3dd : String → Entry ℕ ℕ := fun s =>
  if s = "m1" then ⟨1, ⟨10, 20⟩, "gm1"⟩
  else if s = "o1" then ⟨2, ⟨30, 40⟩, "go1"⟩
  else if s = "o2" then ⟨3, ⟨50, 60⟩, "go2"⟩
  else ⟨0, ⟨0, 0⟩, "gz"⟩

/-- A concrete regridding function for the C3 witness: reads only the entry
being regridded and the target grid. -/
def C3rgr : (String → Entry ℕ ℕ) → String → RGrid ℕ → ℕ :=
  fun dd nm tg => (dd nm).data * 100 + tg.lon

/-- The dictionary produced by the C3 witness run of `remap_func`. -/
def C3dd1 : String → Entry ℕ ℕ :=
  regridFold C3rgr ((C3dd "o1").grid)
    (regridFold C3rgr ((C3dd "o1").grid) C3dd ["m1"]) (["o1", "o2"].erase "o1")

/-- The gdict produced by the C3 witness run of `remap_func`. -/
def C3gd : GDict ℕ := ⟨[("o1", 30)], [("o1", 40)], "go1"⟩

/-- Concrete external collaborators for the C6/C8 witnesses. -/
def extTriv : StatsExt ℕ Unit :=
  { prep := id
    calcStatistics := id
    regMask := fun _ _ => ()
    maskData := fun d _ => d }

/-- A concrete dataset for the C6/C8 witnesses. -/
def C6data : DSet ℕ :=
  { dims := ["time", "y", "x"]
    sizes := fun _ => 5
    chunks := fun _ => [5]
    values := 42 }

/-- A concrete participant list for the C8 witness: one participant with data,
one with `None`. -/
def C8models : List (String × Option (DSet ℕ)) :=
  [("m1", some C6data), ("m2", none)]

/-- The 2D longitude array of the C9 failing input: descending along x. -/
def C9lons : Coord := Coord.two [[3, 2], [5, 4]]

/-- The 2D latitude array of the C9 failing input: ascending along y. -/
def C9lats : Coord := Coord.two [[0, 0], [1, 1]]

/-! ### Helper lemmas about the chunking primitives -/

/-- `mkChunksF` does not depend on the fuel once the fuel covers the size. -/
theorem mkChunksF_congr (c : ℕ) :
    ∀ (n f₁ f₂ : ℕ), n ≤ f₁ → n ≤ f₂ → mkChunksF c f₁ n = mkChunksF c f₂ n := by
  intro n
  induction n using Nat.strong_induction_on with
  | _ n ih =>
    intro f₁ f₂ h₁ h₂
    cases n with
    | zero => cases f₁ <;> cases f₂ <;> rfl
    | succ m =>
      cases f₁ with
      | zero => omega
      | succ g₁ =>
        cases f₂ with
        | zero => omega
        | succ g₂ =>
          by_cases hc : c = 0
          · simp [mkChunksF, hc]
          · simp only [mkChunksF, hc, if_false]
            congr 1
            exact ih (m + 1 - c) (by omega) g₁ g₂ (by omega) (by omega)

/-- Unfolding equation for `mkChunks` on a nonzero size. -/
theorem mkChunks_succ (c n : ℕ) (hn : n ≠ 0) :
    mkChunks c n = if c = 0 then [] else min c n :: mkChunks c (n - c) := by
  obtain ⟨m, rfl⟩ : ∃ m, n = m + 1 := ⟨n - 1, by omega⟩
  by_cases hc : c = 0
  · simp [mkChunks, mkChunksF, hc]
  · simp only [mkChunks, mkChunksF, hc, if_false]
    congr 1
    exact mkChunksF_congr c (m + 1 - c) m (m + 1 - c) (by omega) le_rfl

/-- The block list produced by chunking size `n` with a positive block size
`c`: `⌊n/c⌋` full blocks of `c` followed by one remainder block when `c` does
not divide `n`. -/
theorem mkChunks_eq_replicate (c : ℕ) (hc : 0 < c) :
    ∀ n, mkChunks c n =
      List.replicate (n / c) c ++ (if n % c = 0 then [] else [n % c]) := by
  intro n
  induction n using Nat.strong_induction_on with
  | _ n ih =>
    rcases Nat.eq_zero_or_pos n with h0 | hpos
    · subst h0
      rw [show mkChunks c 0 = [] from rfl]
      simp
    · rw [mkChunks_succ c n (by omega), if_neg (by omega)]
      rcases lt_or_le n c with hlt | hge
      · have hdiv : n / c = 0 := Nat.div_eq_of_lt hlt
        have hmod : n % c = n := Nat.mod_eq_of_lt hlt
        have hsub : n - c = 0 := by omega
        rw [hsub, show mkChunks c 0 = [] from rfl]
        simp [hdiv, hmod, min_eq_right hlt.le, hpos.ne']
      · have h1 : n - c < n := by omega
        rw [ih (n - c) h1]
        have hdiv : n / c = (n - c) / c + 1 := by
          conv_lhs => rw [show n = (n - c) + c by omega]
          rw [Nat.add_div_right _ hc]
        have hmod : n % c = (n - c) % c := by
          conv_lhs => rw [show n = (n - c) + c by omega]
          rw [Nat.add_mod_right]
        rw [min_eq_left hge, hdiv, hmod, List.replicate_succ]
        simp

/-- Number of blocks produced by `mkChunks`. -/
theorem mkChunks_length (c n : ℕ) (hc : 0 < c) :
    (mkChunks c n).length = n / c + (if n % c = 0 then 0 else 1) := by
  rw [mkChunks_eq_replicate c hc n]
  rcases eq_or_ne (n % c) 0 with h | h <;> simp [h]

/-- Chunking partitions the dimension: block sizes sum to the size. -/
theorem mkChunks_sum (c n : ℕ) (hc : 0 < c) : (mkChunks c n).sum = n := by
  rw [mkChunks_eq_replicate c hc n]
  have hdm : n / c * c + n % c = n := Nat.div_add_mod' n c
  rcases eq_or_ne (n % c) 0 with h | h <;>
    simp [h, List.sum_replicate, smul_eq_mul] <;> omega

/-- A list of positive naturals is at least as long as its sum is large. -/
theorem length_le_sum_of_pos (l : List ℕ) (h : ∀ x ∈ l, 0 < x) :
    l.length ≤ l.sum := by
  induction l with
  | nil => simp
  | cons a t ih =>
    have ha : 0 < a := h a (by simp)
    have ht := ih (fun x hx => h x (by simp [hx]))
    simp only [List.length_cons, List.sum_cons]
    omega

/-- `np.round` never rounds below the floor. -/
theorem npRound_ge_floor (q : ℚ) : ⌊q⌋ ≤ npRound q := by
  unfold npRound
  split_ifs <;> omega

/-- Evaluation helper: `Nat.sqrt 500 = 22`. -/
theorem natSqrt_500 : Nat.sqrt 500 = 22 := by
  rw [show (500 : ℕ) = 22 * 22 + 16 by norm_num]
  exact Nat.sqrt_add_eq 22 (by norm_num)

/-- Evaluation helper: the chunk edge `manage_chunks` computes for a
1000 × 1000 spatial grid is `round(1000 / sqrt(1000·1000/500)) = round(√500)
= 22`. -/
theorem cSize_1000_1000 : cSize 1000 1000 = 22 := by
  norm_num [cSize, roundSqrt, show ((500 : ℤ).toNat) = 500 from rfl, natSqrt_500]

/-! ### Claim C1 -/

/-- Claim C1 (code bug): the claim states that `manage_chunks` in `'space'`
mode keeps the implied spatial chunk count `ceil(nx/c) * ceil(ny/c)` at most
500, in particular for nx = ny = 1000.  The code computes chunk edge
`c = round(1000/sqrt(1000*1000/500)) = 22`, so each spatial dimension splits
into `ceil(1000/22) = 46` blocks and the implied chunk count is
`46 * 46 = 2116 > 500`, contradicting the claim and the source's own comment
`# Max number of chunks`. -/
theorem C1_space_chunks_exceed_max :
    (manage_chunks C1data "space").map
        (fun d => ((d.chunks "x").length, (d.chunks "y").length)) =
      some (46, 46) ∧
    ¬ (46 * 46 ≤ 500) := by
  constructor
  · show some ((mkChunks (cSize 1000 1000) 1000).length,
        (mkChunks (cSize 1000 1000) 1000).length) = some (46, 46)
    rw [cSize_1000_1000]
    have h46 : (mkChunks 22 1000).length = 46 := by decide
    rw [h46]
  · norm_num

/-! ### Claim C5 -/

/-- Claim C5 (confirmed): whenever `manage_chunks` returns a dataset (either
chunk mode), that dataset carries exactly the same data values — and the same
dimensions and sizes — as the input; only the chunk layout may change. -/
theorem C5_manage_chunks_preserves_values (α : Type) (d : DSet α)
    (chunk_dim : String) (d' : DSet α)
    (h : manage_chunks d chunk_dim = some d') :
    d'.values = d.values ∧ d'.dims = d.dims ∧ d'.sizes = d.sizes := by
  unfold manage_chunks at h
  split at h
  · split at h
    · simp only [Option.some.injEq] at h
      subst h
      exact ⟨rfl, rfl, rfl⟩
    · exact Option.noConfusion h
  · split at h <;>
      (simp only [Option.some.injEq] at h; subst h; exact ⟨rfl, rfl, rfl⟩)

/-- Witness for C5: `manage_chunks` on a concrete dataset in `'time'` mode
returns it unchanged, and the theorem applies to that run. -/
theorem C5_manage_chunks_preserves_values_witness :
    manage_chunks C5data "time" = some C5data ∧
    C5data.values = C5data.values ∧ C5data.dims = C5data.dims ∧
      C5data.sizes = C5data.sizes :=
  ⟨rfl, C5_manage_chunks_preserves_values ℕ C5data "time" C5data rfl⟩

/-! ### Claim C7 -/

/-- Claim C7 (amended): in `'time'` mode `manage_chunks` leaves the dataset
unchanged when the existing number of time blocks is at most 500; otherwise it
re-chunks the time dimension into equal blocks of `round(n_time/500)` elements
(the last block holding the remainder).  The resulting block count is
`⌊n/r⌋ (+1)` with `r = round(n/500)` — approximately 500, but it can exceed
500, so the claimed bound "at most 500 blocks" does not hold (see the
counterexample). -/
theorem C7_time_rechunk (α : Type) (d : DSet α)
    (hpos : ∀ c ∈ d.chunks "time", 0 < c)
    (hsum : (d.chunks "time").sum = d.sizes "time") :
    ((d.chunks "time").length ≤ 500 → manage_chunks d "time" = some d) ∧
    (500 < (d.chunks "time").length →
      manage_chunks d "time" =
        some (d.rechunk
          [("time", (npRound ((d.sizes "time" : ℚ) / 500)).toNat)]) ∧
      1 ≤ (npRound ((d.sizes "time" : ℚ) / 500)).toNat ∧
      (d.rechunk
          [("time", (npRound ((d.sizes "time" : ℚ) / 500)).toNat)]).values =
        d.values ∧
      (d.rechunk
            [("time", (npRound ((d.sizes "time" : ℚ) / 500)).toNat)]).chunks
          "time" =
        List.replicate
            (d.sizes "time" / (npRound ((d.sizes "time" : ℚ) / 500)).toNat)
            ((npRound ((d.sizes "time" : ℚ) / 500)).toNat) ++
          (if d.sizes "time" % (npRound ((d.sizes "time" : ℚ) / 500)).toNat = 0
            then []
            else
              [d.sizes "time" %
                (npRound ((d.sizes "time" : ℚ) / 500)).toNat])) := by
  constructor
  · intro hle
    unfold manage_chunks
    rw [if_neg (by decide), if_neg (by omega)]
  · intro hgt
    have hn : 501 ≤ d.sizes "time" := by
      have hls := length_le_sum_of_pos (d.chunks "time") hpos
      omega
    have hfl : (1 : ℤ) ≤ ⌊(d.sizes "time" : ℚ) / 500⌋ := by
      rw [Int.le_floor]
      rw [le_div_iff₀ (by norm_num)]
      push_cast
      rw [one_mul]
      exact_mod_cast Nat.le_of_succ_le hn
    have hr : 1 ≤ (npRound ((d.sizes "time" : ℚ) / 500)).toNat := by
      have := npRound_ge_floor ((d.sizes "time" : ℚ) / 500)
      omega
    refine ⟨?_, hr, rfl, ?_⟩
    · unfold manage_chunks
      rw [if_neg (by decide), if_pos (by omega)]
    · show mkChunks ((npRound ((d.sizes "time" : ℚ) / 500)).toNat)
          (d.sizes "time") = _
      exact mkChunks_eq_replicate _ (by omega) _

/-- Witness for C7: the amended theorem applies to a concrete well-formed
dataset, whose 3 time blocks (≤ 500) are left untouched. -/
theorem C7_time_rechunk_witness :
    (∀ c ∈ C7data.chunks "time", 0 < c) ∧
    (C7data.chunks "time").sum = C7data.sizes "time" ∧
    ((C7data.chunks "time").length ≤ 500 →
      manage_chunks C7data "time" = some C7data) :=
  ⟨by decide, by decide, (C7_time_rechunk ℕ C7data (by decide) (by decide)).1⟩

/-- Counterexample to C7 as stated: re-chunking 1001 time steps (1001 existing
blocks) to blocks of `round(1001/500) = 2` elements yields 501 blocks, more
than the claimed maximum of 500. -/
theorem C7_time_rechunk_counterexample :
    (manage_chunks C7bad "time").map (fun d => (d.chunks "time").length) =
      some 501 ∧
    ¬ (501 ≤ 500) := by
  constructor
  · have hlen : (C7bad.chunks "time").length = 1001 := by
      simp [C7bad]
    have hr : (npRound ((C7bad.sizes "time" : ℚ) / 500)).toNat = 2 := by
      norm_num [C7bad, npRound, show ((2 : ℤ).toNat) = 2 from rfl]
    unfold manage_chunks
    rw [if_neg (by decide), if_pos (by omega)]
    show some ((mkChunks ((npRound ((C7bad.sizes "time" : ℚ) / 500)).toNat)
        (C7bad.sizes "time")).length) = some 501
    rw [hr]
    show some ((mkChunks 2 1001).length) = some 501
    have h501 : (mkChunks 2 1001).length = 501 := by decide
    rw [h501]
  · norm_num

/-! ### Claim C10 -/

/-- Claim C10 (confirmed): for a nonempty time series, the preprocessing
function returned by `get_prep_func` shortens the time axis by exactly one
step, for both values of the `deacc` flag (successive differences when on,
dropping the last step when off). -/
theorem C10_prep_shortens_time_by_one (α : Type) [Sub α] (deacc : Bool)
    (l : List α) (h : l ≠ []) :
    (get_prep_func deacc l).length + 1 = l.length := by
  cases deacc
  · cases l with
    | nil => exact absurd rfl h
    | cons a t => simp [get_prep_func]
  · cases l with
    | nil => exact absurd rfl h
    | cons a t =>
      simp only [get_prep_func, if_pos, List.tail_cons, List.length_cons,
        List.length_zipWith]
      omega

/-- Witness for C10: a concrete three-step series maps to two steps. -/
theorem C10_prep_shortens_time_by_one_witness :
    ([(3 : ℤ), 5, 9] ≠ []) ∧
    (get_prep_func true [(3 : ℤ), 5, 9]).length + 1 = [(3 : ℤ), 5, 9].length :=
  ⟨by decide, C10_prep_shortens_time_by_one ℤ true [(3 : ℤ), 5, 9] (by decide)⟩

/-! ### Claim C2 -/

/-- Claim C2 (confirmed, spec-modelled): any matrix row with all-zero weight is
replaced by `add_matrix_NaNs` before application, so the corresponding output
cell of the regridded data is NaN (`none`), never zero. -/
theorem C2_zero_weight_rows_yield_NaN (M : List (List ℚ)) (x : List (Option ℚ))
    (i : ℕ) (row : List ℚ) (hrow : M[i]? = some row)
    (hz : row.all (· = 0)) (hne : row ≠ []) (hlen : row.length ≤ x.length) :
    (applyMatrix (add_matrix_NaNs M) x)[i]? = some none := by
  obtain ⟨a, t, rfl⟩ : ∃ a t, row = a :: t := by
    cases row with
    | nil => exact absurd rfl hne
    | cons a t => exact ⟨a, t, rfl⟩
  obtain ⟨b, xs, rfl⟩ : ∃ b xs, x = b :: xs := by
    cases x with
    | nil => simp at hlen
    | cons b xs => exact ⟨b, xs, rfl⟩
  unfold applyMatrix add_matrix_NaNs
  rw [List.getElem?_map, List.getElem?_map, hrow]
  show some (nDot (if (a :: t).all (· = 0) then none :: t.map some
    else (a :: t).map some) (b :: xs)) = some none
  rw [if_pos hz]
  rfl

/-- Witness for C2: a concrete 2×2 matrix whose first row is all-zero maps a
concrete vector to NaN in the first output cell. -/
theorem C2_zero_weight_rows_yield_NaN_witness :
    (([[0, 0], [1, 2]] : List (List ℚ))[0]? = some [0, 0]) ∧
    (([0, 0] : List ℚ).all (· = 0)) ∧
    (([0, 0] : List ℚ) ≠ []) ∧
    (([0, 0] : List ℚ).length ≤ ([some 3, some 4] : List (Option ℚ)).length) ∧
    (applyMatrix (add_matrix_NaNs [[0, 0], [1, 2]]) [some 3, some 4])[0]? =
      some none :=
  ⟨by decide, by decide, by decide, by decide,
    C2_zero_weight_rows_yield_NaN [[0, 0], [1, 2]] [some 3, some 4] 0 [0, 0]
      (by decide) (by decide) (by decide) (by decide)⟩

/-! ### Claim C4 -/

/-- Splitting a sum over a flattened index range into the double sum over the
two dims (row-major). -/
theorem sum_range_mul_split (a b : ℕ) (g : ℕ → ℚ) :
    ∑ k ∈ Finset.range (a * b), g k =
      ∑ y ∈ Finset.range a, ∑ x ∈ Finset.range b, g (y * b + x) := by
  induction a with
  | zero => simp
  | succ n ih =>
    rw [Nat.succ_mul, Finset.sum_range_add, ih, Finset.sum_range_succ]

/-- Division/modulus arithmetic of the row-major flattening: for `x < b`,
`(y*b + x) / b = y` and `(y*b + x) % b = x`. -/
theorem flatten_index_inverse (y b x : ℕ) (hx : x < b) :
    (y * b + x) / b = y ∧ (y * b + x) % b = x := by
  have hb : 0 < b := lt_of_le_of_lt (Nat.zero_le x) hx
  constructor
  · rw [mul_comm y b, Nat.mul_add_div hb, Nat.div_eq_of_lt hx, Nat.add_zero]
  · rw [mul_comm y b, Nat.mul_add_mod, Nat.mod_eq_of_lt hx]

/-- Claim C4 (confirmed): `regridding` applied to a time-major array with
trailing spatial shape `(Ny_in, Nx_in)` equals flatten → sparse-matrix
multiply → reshape, i.e. pointwise
`out[t,i,j] = Σ_{y<Ny_in} Σ_{x<Nx_in} A[i*Nx_out+j, y*Nx_in+x] · data[t,y,x]`;
the returned dataset keeps the input's time coordinate values and attributes,
attaches the target grid's lon/lat, and places them on 1D dims (`x` resp. `y`)
iff the target grid is rectilinear (1D lon), on 2D dims `(y, x)` otherwise. -/
theorem C4_regridding_semantics (τ : Type) (indata : InData τ) (tg : TGrid)
    (A : ℕ → ℕ → ℚ) :
    (∀ t i j, (regridding indata tg A).vals t i j =
      ∑ y ∈ Finset.range indata.NyIn, ∑ x ∈ Finset.range indata.NxIn,
        A (i * (get_grids_outdims tg).1.2 + j) (y * indata.NxIn + x) *
          indata.vals t y x) ∧
    (regridding indata tg A).time = indata.time ∧
    (regridding indata tg A).attrs = indata.attrs ∧
    (regridding indata tg A).lon = tg.lon ∧
    (regridding indata tg A).lat = tg.lat ∧
    (∀ l, tg.lon = Coord.one l →
      (regridding indata tg A).lonDims = ["x"] ∧
      (regridding indata tg A).latDims = ["y"]) ∧
    (∀ m, tg.lon = Coord.two m →
      (regridding indata tg A).lonDims = ["y", "x"] ∧
      (regridding indata tg A).latDims = ["y", "x"]) := by
  refine ⟨?_, rfl, rfl, rfl, rfl, ?_, ?_⟩
  · intro t i j
    show matrix_apply A indata.NyIn indata.NxIn
        (flatten_spatial indata.NxIn indata.vals) t
        (i * (get_grids_outdims tg).1.2 + j) = _
    unfold matrix_apply flatten_spatial
    rw [sum_range_mul_split indata.NyIn indata.NxIn]
    refine Finset.sum_congr rfl fun y _ => Finset.sum_congr rfl fun x hx => ?_
    obtain ⟨hdiv, hmod⟩ :=
      flatten_index_inverse y indata.NxIn x (Finset.mem_range.mp hx)
    rw [hdiv, hmod]
  · intro l hl
    unfold regridding get_grids_outdims
    rw [hl]
    exact ⟨rfl, rfl⟩
  · intro m hm
    unfold regridding get_grids_outdims
    rw [hm]
    exact ⟨rfl, rfl⟩

/-- Witness for C4: the theorem applies to a concrete rectilinear grid, whose
hypothesis `tg.lon = Coord.one l` holds by computation, and yields the 1D
coordinate layout. -/
theorem C4_regridding_semantics_witness :
    C4tg.lon = Coord.one [1, 2] ∧
    (regridding C4in C4tg (fun _ _ => 1)).lonDims = ["x"] ∧
    (regridding C4in C4tg (fun _ _ => 1)).latDims = ["y"] :=
  ⟨rfl, (C4_regridding_semantics ℕ C4in C4tg (fun _ _ => 1)).2.2.2.2.2.1
      [1, 2] rfl⟩

/-! ### Claim C3 -/

/-- A regridding loop never touches entries outside the listed names. -/
theorem regridFold_not_mem (rgr : (String → Entry δ κ) → String → RGrid κ → δ)
    (tg : RGrid κ) (dd : String → Entry δ κ) (names : List String)
    (nm : String) (h : nm ∉ names) :
    regridFold rgr tg dd names nm = dd nm := by
  induction names generalizing dd with
  | nil => rfl
  | cons a t ih =>
    have hna : nm ≠ a := fun e => h (e ▸ List.mem_cons_self a t)
    have hnt : nm ∉ t := fun e => h (List.mem_cons_of_mem a e)
    simp only [regridFold, List.foldl_cons] at *
    rw [ih (updData dd a (rgr dd a tg)) hnt]
    simp [updData, hna]

/-- If the regridding function reads only the entry being regridded (as the
source's `regridding` does: it reads `data[data_name]['data']` and the
separately passed target grid), then after the loop every listed participant's
entry is its original entry with the data replaced by the regridding of its
original data. -/
theorem regridFold_mem (rgr : (String → Entry δ κ) → String → RGrid κ → δ)
    (tg : RGrid κ) (dd : String → Entry δ κ) (names : List String)
    (nm : String)
    (hloc : ∀ d₁ d₂ n g, d₁ n = d₂ n → rgr d₁ n g = rgr d₂ n g)
    (hnd : names.Nodup) (h : nm ∈ names) :
    regridFold rgr tg dd names nm = { dd nm with data := rgr dd nm tg } := by
  induction names generalizing dd with
  | nil => cases h
  | cons a t ih =>
    obtain ⟨hat, hnt⟩ := List.nodup_cons.mp hnd
    simp only [regridFold, List.foldl_cons]
    rcases List.mem_cons.mp h with rfl | hmem
    · rw [show (List.foldl (fun acc n => updData acc n (rgr acc n tg))
          (updData dd nm (rgr dd nm tg)) t) =
            regridFold rgr tg (updData dd nm (rgr dd nm tg)) t from rfl]
      rw [regridFold_not_mem rgr tg _ t nm hat]
      simp [updData]
    · have hna : nm ≠ a := fun e => hat (e ▸ hmem)
      rw [show (List.foldl (fun acc n => updData acc n (rgr acc n tg))
          (updData dd a (rgr dd a tg)) t) =
            regridFold rgr tg (updData dd a (rgr dd a tg)) t from rfl]
      rw [ih (updData dd a (rgr dd a tg)) hnt hmem]
      have heq : updData dd a (rgr dd a tg) nm = dd nm := by
        simp [updData, hna]
      rw [heq, hloc _ dd nm tg heq]

/-- Claim C3 (confirmed): when the configured regrid target is an observation
name, `remap_func` regrids every model's data onto that observation's grid;
when more than one observation dataset exists it also regrids every remaining
observation onto the same grid; and the target observation's own entry is left
unchanged. -/
theorem C3_remap_obs_target (δ κ : Type) (dd : String → Entry δ κ)
    (mnames onames : List String) (oname : String)
    (rgr : (String → Entry δ κ) → String → RGrid κ → δ) (obsNone : Bool)
    (dd' : String → Entry δ κ) (gd : GDict κ)
    (hloc : ∀ d₁ d₂ n g, d₁ n = d₂ n → rgr d₁ n g = rgr d₂ n g)
    (ho : oname ∈ onames) (hmnd : mnames.Nodup) (hond : onames.Nodup)
    (hdisj : ∀ m ∈ mnames, m ∉ onames)
    (h : remap_func dd (some oname) mnames onames rgr obsNone =
      some (dd', gd)) :
    (∀ m ∈ mnames,
      dd' m = { dd m with data := rgr dd m ((dd oname).grid) }) ∧
    (1 < onames.length → ∀ o ∈ onames, o ≠ oname →
      dd' o = { dd o with data := rgr dd o ((dd oname).grid) }) ∧
    dd' oname = dd oname := by
  simp only [remap_func] at h
  rw [if_pos ho] at h
  simp only [Option.some.injEq, Prod.mk.injEq] at h
  obtain ⟨hdd, -⟩ := h
  subst hdd
  by_cases hlen : onames.length > 1
  · rw [if_pos hlen]
    have hmid : ∀ n, n ∈ mnames ∨ n = oname →
        regridFold rgr ((dd oname).grid) dd mnames n =
          (if n ∈ mnames then { dd n with data := rgr dd n ((dd oname).grid) }
           else dd n) := by
      intro n hn
      by_cases hnm : n ∈ mnames
      · rw [if_pos hnm]
        exact regridFold_mem rgr _ dd mnames n hloc hmnd hnm
      · rw [if_neg hnm]
        exact regridFold_not_mem rgr _ dd mnames n hnm
    refine ⟨?_, ?_, ?_⟩
    · intro m hm
      have hmo : m ∉ onames.erase oname :=
        fun e => hdisj m hm (List.mem_of_mem_erase e)
      rw [regridFold_not_mem rgr _ _ (onames.erase oname) m hmo]
      have := hmid m (Or.inl hm)
      rw [if_pos hm] at this
      exact this
    · intro _ o hoo hne
      have hoe : o ∈ onames.erase oname := (List.mem_erase_of_ne hne).mpr hoo
      have hom : o ∉ mnames := fun e => hdisj o e hoo
      have hmido : regridFold rgr ((dd oname).grid) dd mnames o = dd o :=
        regridFold_not_mem rgr _ dd mnames o hom
      rw [regridFold_mem rgr _ _ (onames.erase oname) o hloc
        (hond.erase oname) hoe]
      rw [hmido, hloc _ dd o ((dd oname).grid) hmido]
    · have h2 : oname ∉ mnames := fun e => hdisj oname e ho
      rw [regridFold_not_mem rgr _ _ (onames.erase oname) oname
        (hond.not_mem_erase)]
      exact regridFold_not_mem rgr _ dd mnames oname h2
  · rw [if_neg hlen]
    refine ⟨?_, ?_, ?_⟩
    · intro m hm
      exact regridFold_mem rgr _ dd mnames m hloc hmnd hm
    · intro hcon
      omega
    · exact regridFold_not_mem rgr _ dd mnames oname
        (fun e => hdisj oname e ho)

/-- Witness for C3: the theorem applies to a one-model/two-observation run
targeting observation "o1", and yields exactly the claimed per-entry
results. -/
theorem C3_remap_obs_target_witness :
    (∀ d₁ d₂ n g, d₁ n = d₂ n → C3rgr d₁ n g = C3rgr d₂ n g) ∧
    ("o1" ∈ ["o1", "o2"]) ∧
    (["m1"] : List String).Nodup ∧
    (["o1", "o2"] : List String).Nodup ∧
    (∀ m ∈ ["m1"], m ∉ ["o1", "o2"]) ∧
    remap_func C3dd (some "o1") ["m1"] ["o1", "o2"] C3rgr false =
      some (C3dd1, C3gd) ∧
    C3dd1 "m1" = { C3dd "m1" with data := C3rgr C3dd "m1" ((C3dd "o1").grid) } ∧
    C3dd1 "o2" = { C3dd "o2" with data := C3rgr C3dd "o2" ((C3dd "o1").grid) } ∧
    C3dd1 "o1" = C3dd "o1" := by
  have hloc : ∀ (d₁ d₂ : String → Entry ℕ ℕ) n g,
      d₁ n = d₂ n → C3rgr d₁ n g = C3rgr d₂ n g := by
    intro d₁ d₂ n g h
    simp only [C3rgr]
    rw [h]
  have H := C3_remap_obs_target ℕ ℕ C3dd ["m1"] ["o1", "o2"] "o1" C3rgr false
    C3dd1 C3gd hloc (by decide) (by decide) (by decide) (by decide) rfl
  exact ⟨hloc, by decide, by decide, by decide, by decide, rfl,
    H.1 "m1" (by decide), H.2.1 (by decide) "o2" (by decide) (by decide),
    H.2.2⟩

/-! ### Claim C6 -/

/-- Claim C6 (confirmed): with regions configured, the per-participant body of
`calc_stats` computes, in `pool` mode, the statistic independently on each
region-masked subset of the (prepared, chunk-managed) data; with `pool` off it
computes the statistic once on the full domain and applies each region mask to
that already-computed domain result. -/
theorem C6_region_stats (β μ : Type) (ext : StatsExt β μ) (chunk_dim : String)
    (pool : Bool) (regions : List String) (indata data : DSet β)
    (hreg : regions ≠ [])
    (h : manage_chunks (ext.prep indata) chunk_dim = some data) :
    calc_stats_entry ext chunk_dim pool regions indata =
      some
        { domain := ext.calcStatistics data
          regions :=
            some
              (if pool then
                regions.map fun r =>
                  (r, ext.calcStatistics
                    (ext.maskData data (ext.regMask data r)))
              else
                regions.map fun r =>
                  (r, ext.maskData (ext.calcStatistics data)
                    (ext.regMask data r))) } := by
  unfold calc_stats_entry
  rw [h]
  have hemp : regions.isEmpty = false := by
    cases regions with
    | nil => exact absurd rfl hreg
    | cons a t => rfl
  rw [Option.map_some', hemp]
  rfl

/-- Witness for C6: the theorem applies to a concrete dataset with one region,
with trivial external collaborators, in pool mode. -/
theorem C6_region_stats_witness :
    ((["r1"] : List String) ≠ []) ∧
    manage_chunks (extTriv.prep C6data) "time" = some C6data ∧
    calc_stats_entry extTriv "time" true ["r1"] C6data =
      some
        { domain := extTriv.calcStatistics C6data
          regions :=
            some
              (if true then
                ["r1"].map fun r =>
                  (r, extTriv.calcStatistics
                    (extTriv.maskData C6data (extTriv.regMask C6data r)))
              else
                ["r1"].map fun r =>
                  (r, extTriv.maskData (extTriv.calcStatistics C6data)
                    (extTriv.regMask C6data r))) } :=
  ⟨by decide, rfl,
    C6_region_stats ℕ Unit extTriv "time" true ["r1"] C6data C6data
      (by decide) rfl⟩

/-! ### Claim C8 -/

/-- Claim C8 (confirmed): participants whose data entry is `None` are skipped
by `calc_stats` — no error, no result entry — while every participant with
data (whose computation succeeds) gets its statistics computed, in order. -/
theorem C8_missing_data_skipped (β μ : Type) (ext : StatsExt β μ)
    (chunk_dim : String) (pool : Bool) (regions : List String)
    (models : List (String × Option (DSet β)))
    (h : ∀ p ∈ models, ∀ d, p.2 = some d →
      (calc_stats_entry ext chunk_dim pool regions d).isSome) :
    calc_stats ext chunk_dim pool regions models =
      some (models.filterMap fun p =>
        p.2.bind fun d =>
          (calc_stats_entry ext chunk_dim pool regions d).map fun e =>
            (p.1, e)) := by
  induction models with
  | nil => rfl
  | cons p rest ih =>
    obtain ⟨nm, od⟩ := p
    have hrest := ih (fun q hq d hd => h q (List.mem_cons_of_mem _ hq) d hd)
    cases od with
    | none =>
      simp only [calc_stats, hrest, List.filterMap_cons, Option.none_bind]
    | some d =>
      have hd := h (nm, some d) (List.mem_cons_self _ _) d rfl
      obtain ⟨e, he⟩ := Option.isSome_iff_exists.mp hd
      simp only [calc_stats, he, hrest, List.filterMap_cons, Option.some_bind,
        Option.map_some']

/-- Witness for C8: a concrete run with one available and one missing
participant; the theorem's hypothesis holds and the missing participant is
skipped. -/
theorem C8_missing_data_skipped_witness :
    (∀ p ∈ C8models, ∀ d, p.2 = some d →
      (calc_stats_entry extTriv "time" true ["r1"] d).isSome) ∧
    calc_stats extTriv "time" true ["r1"] C8models =
      some (C8models.filterMap fun p =>
        p.2.bind fun d =>
          (calc_stats_entry extTriv "time" true ["r1"] d).map fun e =>
            (p.1, e)) := by
  have hyp : ∀ p ∈ C8models, ∀ d, p.2 = some d →
      (calc_stats_entry extTriv "time" true ["r1"] d).isSome := by
    intro p hp d hd
    rcases List.mem_cons.mp hp with rfl | hp2
    · cases hd
      rfl
    · rcases List.mem_cons.mp hp2 with rfl | hp3
      · cases hd
      · cases hp3
  exact ⟨hyp,
    C8_missing_data_skipped ℕ Unit extTriv "time" true ["r1"] C8models hyp⟩

/-! ### Claim C9 -/

/-- Claim C9 (code bug): the claim states that `get_obs_data` reindexes
descending longitudes to ascending order for 2D coordinate arrays as well.
On the concrete 2D input with longitudes `[[3,2],[5,4]]` (descending along x)
the source detects the descending order but "fixes" it with `np.flipud`,
which only swaps the rows: the returned longitude array `[[5,4],[3,2]]` is
still descending along x (its first row `[5,4]` is not ascending), while the
dataset has nevertheless been reindexed along x. -/
theorem C9_two_dim_lon_stays_descending :
    get_obs_data_orient C9lons C9lats [[10, 11], [12, 13]] =
      some (Coord.two [[5, 4], [3, 2]], Coord.two [[0, 0], [1, 1]],
        [[11, 10], [13, 12]]) ∧
    ¬ ((5 : ℚ) ≤ 4) := by
  constructor
  · norm_num [get_obs_data_orient, diffHead, column0, C9lons, C9lats]
  · norm_num

end RCAT
